import Mathlib

/-!
Shallow embedding of the SociaMate frontend boundary adapter
(frontend/utils/api.ts: parseCSVMessages, conversationCache, sendToNewAPI,
sendToLegacyAPI, sendTextToBackend, sendTextForDraftResponse) and of the
page component handlers (handleFileUpload, handleSummarize,
handleGetKeyInfo), together with a spec-modelled ContextService
(the backend service code is not part of the frontend sources; only its
documentation is, see docs/ARCHITECTURE.md and spec §4.5).

Modelling conventions:
  * JavaScript strings are Lean `String`s; a possibly-absent field is
    `Option String`, with `none` for `undefined`.
  * JavaScript truthiness on such a value: truthy iff present and non-empty.
  * `fetch` is modelled by a `World` of response functions, one per
    endpoint; each call can return an ok body, a non-ok response, or throw.
  * Module-level mutable state (`conversationCache`) is explicit state
    threaded through the functions; issued requests are logged so that
    theorems can speak about which HTTP calls a code path performs.
  * PapaParse with `header: true, skipEmptyLines: true` is modelled for
    plain (unquoted) CSV: split on newlines, drop empty lines, the first
    line gives the headers, each later line becomes an association list
    from header to cell (rows shorter than the header keep only the
    fields actually present, as PapaParse does).
  * `new Date(s).toISOString()` is an abstract parameter
    `dateToISO : String → Option String`, `none` standing for the
    RangeError thrown on an invalid date.
-/

namespace SociaMate

/-- Split a character list at every occurrence of the separator. -/
def splitChar (sep : Char) : List Char → List (List Char)
  | [] => [[]]
  | x :: xs =>
      let r := splitChar sep xs
      if x = sep then
        [] :: r
      else
        match r with
        | [] => [[x]]
        | y :: ys => (x :: y) :: ys

/-- One parsed CSV record: header name to cell value, in column order. -/
abbrev Row := List (String × String)

/-- PapaParse with header and skipEmptyLines on plain CSV text. -/
def csvRows (text : String) : List Row :=
  let lines := (splitChar '\n' text.data).filter (fun l => l ≠ [])
  match lines with
  | [] => []
  | h :: rest =>
      let headers := (splitChar ',' h).map String.mk
      rest.map (fun r => headers.zip ((splitChar ',' r).map String.mk))

/-- Field access `row.k` on a parsed record. -/
def jsField (row : Row) (k : String) : Option String :=
  row.lookup k

/-- JavaScript truthiness of a possibly-undefined string. -/
def truthy : Option String → Bool
  | none => false
  | some s => !s.data.isEmpty

/-- The JS chain `a || b || ... || default` over string fields. -/
def firstTruthy (l : List (Option String)) (dflt : String) : String :=
  match l with
  | [] => dflt
  | o :: rest => if truthy o then o.getD dflt else firstTruthy rest dflt

/-- Normalized message handed to the backend (author, content, timestamp?). -/
structure Msg where
  author : String
  content : String
  timestamp : Option String
deriving DecidableEq, Repr

/-- Normalization of one CSV record into a Msg, as in the body of the
`parsed.data.map` callback of `parseCSVMessages`; `none` when
`toISOString` throws on the row's timestamp. -/
def rowToMsg (dateToISO : String → Option String) (row : Row) : Option Msg :=
  let ts := jsField row "timestamp"
  let tsv : Option (Option String) :=
    if truthy ts then (dateToISO (ts.getD "")).map some else some none
  tsv.map (fun t =>
    { author := firstTruthy [jsField row "user_name", jsField row "author", jsField row "sender"] "Unknown"
      content := firstTruthy [jsField row "content", jsField row "message", jsField row "text"] ""
      timestamp := t })

/-- The `parsed.data.map` call inside the try block: normalize every row,
any thrown error aborting the whole map. -/
def mapRowsToMsgs (f : Row → Option Msg) : List Row → Option (List Msg)
  | [] => some []
  | r :: rs =>
      match f r with
      | none => none
      | some m =>
          match mapRowsToMsgs f rs with
          | none => none
          | some ms => some (m :: ms)

/-- `parseCSVMessages` from the adapter: parse CSV with headers, reject an
empty record list, normalize each row; any thrown error yields `null`. -/
def parseCSVMessages (dateToISO : String → Option String) (text : String) :
    Option (List Msg) :=
  let rows := csvRows text
  if rows.isEmpty then none
  else mapRowsToMsgs (rowToMsg dateToISO) rows

/-- Base64 alphabet used by `btoa`. -/
def base64Chars : List Char :=
  "ABCDEFGHIJKLMNOPQRSTUVWXYZabcdefghijklmnopqrstuvwxyz0123456789+/".data

/-- One base64 digit. -/
def b64Digit (n : Nat) : Char :=
  base64Chars.getD n 'A'

/-- Base64 encoding of a byte list, with padding, as `btoa` produces. -/
def b64Encode : List Nat → List Char
  | [] => []
  | [a] =>
      [b64Digit (a / 4), b64Digit (a % 4 * 16), '=', '=']
  | [a, b] =>
      [b64Digit (a / 4), b64Digit (a % 4 * 16 + b / 16), b64Digit (b % 16 * 4), '=']
  | a :: b :: c :: rest =>
      b64Digit (a / 4) :: b64Digit (a % 4 * 16 + b / 16) ::
        b64Digit (b % 16 * 4 + c / 64) :: b64Digit (c % 64) :: b64Encode rest

/-- The JS `btoa` on a Latin-1 string (our inputs are ASCII). -/
def btoa (s : String) : String :=
  String.mk (b64Encode (s.data.map Char.toNat))

/-- JS `text.substring(0, 100)`. -/
def jsSubstring100 (s : String) : String :=
  String.mk (s.data.take 100)

/-- The adapter's cache key:
`btoa(text.substring(0, 100)).replace(/[^a-zA-Z0-9]/g, "")`. -/
def convKey (text : String) : String :=
  String.mk ((btoa (jsSubstring100 text)).data.filter Char.isAlphanum)

/-- Outcome of one `fetch`: an ok response with a parsed JSON body, a
non-ok response, or a rejected promise (network error / thrown). -/
inductive FetchOutcome (α : Type) where
  | ok (body : α)
  | httpError
  | netThrow
deriving DecidableEq, Repr

/-- The backend as seen through `fetch`: a response for every request the
adapter can issue. `createConv` receives the message list and the
requested conversation id and, when ok, answers with the conversation id
the server chose (the `conversation_id` field of the response body);
`summaryResp` is keyed by the conversation id in the URL; `legacyResp`
and `draftResp` by the request bodies. -/
structure World where
  createConv : List Msg → String → FetchOutcome String
  summaryResp : String → FetchOutcome String
  legacyResp : String → FetchOutcome String
  draftResp : String → Option String → FetchOutcome String

/-- An HTTP request issued by the adapter, with the data its body carries. -/
inductive Request where
  | createConversation (messages : List Msg) (conversation_id : String)
  | getSummary (conversation_id : String)
  | legacySummarize (text : String)
  | draftRequest (text : String) (as_user : Option String)
deriving DecidableEq, Repr

/-- The module-level `conversationCache`; newer bindings shadow older ones. -/
abbrev ConvCache := List (String × String)

/-- Lookup in the conversation cache. -/
def cacheLookup (c : ConvCache) (k : String) : Option String :=
  c.lookup k

/-- `sendToLegacyAPI`: POST /summarize, throw on a non-ok response. -/
def sendToLegacyAPI (w : World) (text : String) :
    Except String String × List Request :=
  match w.legacyResp text with
  | .ok b => (.ok b, [.legacySummarize text])
  | .httpError => (.error "Failed to summarize", [.legacySummarize text])
  | .netThrow => (.error "fetch rejected", [.legacySummarize text])

/-- The body of `sendToNewAPI`'s try block (lines 31-72 of the adapter):
compute the cache key, parse the CSV, fall through to the legacy endpoint
when parsing yields no messages, otherwise create the conversation when
the key is not cached (caching the server-returned id) and fetch the
summary; `Except.error` stands for a thrown error. Returns the result,
the updated cache and the requests issued. -/
def sendToNewAPIInner (w : World) (dateToISO : String → Option String)
    (fresh : String) (cache : ConvCache) (text : String) :
    Except String String × ConvCache × List Request :=
  let textHash := convKey text
  let cached := cacheLookup cache textHash
  match parseCSVMessages dateToISO text with
  | none =>
      let r := sendToLegacyAPI w text
      (r.1, cache, r.2)
  | some messages =>
      match cached with
      | some cid =>
          match w.summaryResp cid with
          | .ok b => (.ok b, cache, [.getSummary cid])
          | _ => (.error "Failed to get summary", cache, [.getSummary cid])
      | none =>
          match w.createConv messages fresh with
          | .ok rid =>
              let cache2 : ConvCache := (textHash, rid) :: cache
              match w.summaryResp rid with
              | .ok b =>
                  (.ok b, cache2, [.createConversation messages fresh, .getSummary rid])
              | _ =>
                  (.error "Failed to get summary", cache2,
                    [.createConversation messages fresh, .getSummary rid])
          | _ =>
              (.error "Failed to create conversation", cache,
                [.createConversation messages fresh])

/-- `sendToNewAPI`: the try block above with its catch, which falls back
to the legacy endpoint on any thrown error. -/
def sendToNewAPI (w : World) (dateToISO : String → Option String)
    (fresh : String) (cache : ConvCache) (text : String) :
    Except String String × ConvCache × List Request :=
  match sendToNewAPIInner w dateToISO fresh cache text with
  | (.ok b, c2, log) => (.ok b, c2, log)
  | (.error _, c2, log) =>
      let r := sendToLegacyAPI w text
      (r.1, c2, log ++ r.2)

/-- `sendTextToBackend`: try the new API, fall back to the legacy API on a
thrown error. -/
def sendTextToBackend (w : World) (dateToISO : String → Option String)
    (fresh : String) (cache : ConvCache) (text : String) :
    Except String String × ConvCache × List Request :=
  match sendToNewAPI w dateToISO fresh cache text with
  | (.ok b, c2, log) => (.ok b, c2, log)
  | (.error _, c2, log) =>
      let r := sendToLegacyAPI w text
      (r.1, c2, log ++ r.2)

/-- `sendTextForDraftResponse`: POST { text, as_user } to /draft_response,
return the parsed JSON body when ok, throw otherwise. -/
def sendTextForDraftResponse (w : World) (text : String) (asUser : Option String) :
    Except String String × List Request :=
  match w.draftResp text asUser with
  | .ok b => (.ok b, [.draftRequest text asUser])
  | .httpError => (.error "Failed to draft response", [.draftRequest text asUser])
  | .netThrow => (.error "fetch rejected", [.draftRequest text asUser])

/-- The React state of the Home page component (one field per useState). -/
structure UIState where
  text : String
  summary : String
  draftResponse : String
  keyInfo : String
  icsFile : String
  loading : Bool
  draftLoading : Bool
  keyLoading : Bool
  userNames : List String
  selectedUser : String
deriving DecidableEq, Repr

/-- The initial page state: every string empty, every flag false. -/
def initialUIState : UIState :=
  { text := "", summary := "", draftResponse := "", keyInfo := "", icsFile := ""
    loading := false, draftLoading := false, keyLoading := false
    userNames := [], selectedUser := "" }

/-- Outcome of an awaited API call inside a handler: the promise resolves
with a value or rejects. -/
inductive CallOutcome (α : Type) where
  | success (v : α)
  | failure
deriving DecidableEq, Repr

/-- `handleSummarize`: set loading, await the backend, store the summary on
success, alert on failure, and reset loading in the finally block. -/
def handleSummarize (s : UIState) (o : CallOutcome String) : UIState :=
  let s1 := { s with loading := true }
  match o with
  | .success v => { s1 with summary := v, loading := false }
  | .failure => { s1 with loading := false }

/-- `handleDraftResponse`: same shape as `handleSummarize`, on the draft
fields (draftLoading reset in the finally block). -/
def handleDraftResponse (s : UIState) (o : CallOutcome String) : UIState :=
  let s1 := { s with draftLoading := true }
  match o with
  | .success v => { s1 with draftResponse := v, draftLoading := false }
  | .failure => { s1 with draftLoading := false }

/-- `handleGetKeyInfo`: return early on empty text, set keyLoading, await
`sendTextForKeyInfo` with no try/catch; only on success are keyInfo,
icsFile and keyLoading updated — a rejected call leaves the state as it
was right after `setKeyLoading(true)`. -/
def handleGetKeyInfo (s : UIState) (o : CallOutcome (String × String)) : UIState :=
  if s.text = "" then s
  else
    let s1 := { s with keyLoading := true }
    match o with
    | .success kv => { s1 with keyInfo := kv.1, icsFile := kv.2, keyLoading := false }
    | .failure => s1

/-- The `disabled` expression of the Get Key Info button:
`!text || keyLoading`. -/
def keyInfoButtonDisabled (s : UIState) : Bool :=
  decide (s.text = "") || s.keyLoading

/-- First occurrences of a string list, in order (the JS
`Array.from(new Set(...))`, which preserves insertion order). -/
def uniqueFirst : List String → List String → List String
  | [], _ => []
  | x :: xs, seen => if x ∈ seen then uniqueFirst xs seen else x :: uniqueFirst xs (x :: seen)

/-- JS `key.toLowerCase()` (per-character, enough for ASCII headers). -/
def jsToLower (s : String) : String :=
  String.mk (s.data.map Char.toLower)

/-- The `userNameKey` computation of `handleFileUpload`: the first key of
the first parsed record whose lowercase form is user_name, author or
sender. -/
def userColumnKey (row : Row) : Option String :=
  (row.find? (fun kv => ["user_name", "author", "sender"].contains (jsToLower kv.1))).map
    (fun kv => kv.1)

/-- The JS filter `name && name.trim() !== ""`: a defined, non-blank cell. -/
def nonBlank (s : String) : Bool :=
  s.data.any (fun c => !c.isWhitespace)

/-- The user-name extraction of `handleFileUpload`: `none` when the parsed
data is empty or no user-name column is found (in which case no setState
runs), otherwise the deduplicated non-blank values of that column. -/
def extractedUserNames (content : String) : Option (List String) :=
  match csvRows content with
  | [] => none
  | firstRow :: rest =>
      match userColumnKey firstRow with
      | none => none
      | some key =>
          some (uniqueFirst
            (((firstRow :: rest).filterMap (fun r => jsField r key)).filter nonBlank) [])

/-- `handleFileUpload`: store the file content in `text`, then, when a
user-name column is found, set `userNames` and, when non-empty, the
default `selectedUser`. -/
def handleFileUpload (s : UIState) (content : String) : UIState :=
  let s1 := { s with text := content }
  match extractedUserNames content with
  | none => s1
  | some names =>
      let s2 := { s1 with userNames := names }
      match names with
      | [] => s2
      | n :: _ => { s2 with selectedUser := n }

/-- A conversation chunk as the spec's data model describes it (spec §3);
`embedding = none` is the PENDING state. -/
structure Chunk where
  ordinal : Nat
  version : Nat
  chunkText : String
  embedding : Option (List Int)
deriving DecidableEq, Repr

/-- Insert a chunk into a list sorted by descending ordinal. -/
def insertByOrdinalDesc (c : Chunk) : List Chunk → List Chunk
  | [] => [c]
  | x :: xs =>
      if x.ordinal ≤ c.ordinal then c :: x :: xs else x :: insertByOrdinalDesc c xs

/-- Sort chunks by descending ordinal (most recent first). -/
def sortByOrdinalDesc : List Chunk → List Chunk
  | [] => []
  | c :: cs => insertByOrdinalDesc c (sortByOrdinalDesc cs)

/-- First occurrences of a chunk list, in order. -/
def uniqueFirstChunks : List Chunk → List Chunk → List Chunk
  | [], _ => []
  | x :: xs, seen =>
      if x ∈ seen then uniqueFirstChunks xs seen else x :: uniqueFirstChunks xs (x :: seen)

/-- Modelled from the spec: the K most recent chunks by ordinal, the
chronological fallback of ContextService (spec §4.5 step 3; the backend
service implementation is not among the sources, only its documentation). -/
def recentChunks (chunks : List Chunk) (k : Nat) : List Chunk :=
  (sortByOrdinalDesc chunks).take k

/-- Modelled from the spec: ContextService's assembly step (spec §4.5
step 4) — deduplicate the selected chunks and concatenate their text in
ascending ordinal order. -/
def assembleContext (selected : List Chunk) : String :=
  String.join (((sortByOrdinalDesc (uniqueFirstChunks selected [])).reverse).map
    (fun c => c.chunkText))

/-- Modelled from the spec: ContextService.get_context (spec §4.5, backend
implementation not among the sources). The cache layer is omitted (a cold
cache never changes results, spec §4.4); `embed` is the external Embedder,
`none` when it is unavailable; `search` is VectorIndex.search. With a
query, the query is embedded and the top-K semantic chunks (those with a
live embedding) are taken; with no query, or when fewer than K usable
semantic chunks result, the K most recent chunks by ordinal are added as
chronological fallback. The assembled context and its size are returned;
the path itself never fails. -/
def getContext (embed : String → Option (List Int))
    (search : List Int → Nat → List Chunk)
    (chunks : List Chunk) (k : Nat) (query : Option String) :
    Except String (String × Nat) :=
  let semantic : List Chunk :=
    match query with
    | none => []
    | some q =>
        match embed q with
        | none => []
        | some v => (search v k).filter (fun c => c.embedding.isSome)
  let selected := if semantic.length < k then semantic ++ recentChunks chunks k else semantic
  let ctx := assembleContext selected
  .ok (ctx, ctx.data.length)

/-- The user list exactly as the claim describes it: the distinct,
non-blank values of the first parsed column whose header is user_name,
author or sender compared case-insensitively, in order of first
occurrence; empty when no such column exists or there are no data rows. -/
def claimedUserList (content : String) : List String :=
  match csvRows content with
  | [] => []
  | firstRow :: rest =>
      match userColumnKey firstRow with
      | none => []
      | some key =>
          uniqueFirst
            (((firstRow :: rest).filterMap (fun r => jsField r key)).filter nonBlank) []

theorem uniqueFirst_mem_imp {x : String} :
    ∀ (l seen : List String), x ∈ uniqueFirst l seen → x ∈ l ∧ x ∉ seen := by
  intro l
  induction l with
  | nil =>
      intro seen h
      simp [uniqueFirst] at h
  | cons y ys ih =>
      intro seen h
      by_cases hy : y ∈ seen
      · simp only [uniqueFirst, hy, if_pos] at h
        obtain ⟨h1, h2⟩ := ih seen h
        exact ⟨List.mem_cons_of_mem _ h1, h2⟩
      · simp only [uniqueFirst, hy, if_neg, not_false_iff, List.mem_cons] at h
        rcases h with h | h
        · subst h
          exact ⟨List.mem_cons_self _ _, hy⟩
        · obtain ⟨h1, h2⟩ := ih (y :: seen) h
          refine ⟨List.mem_cons_of_mem _ h1, fun hx => h2 (List.mem_cons_of_mem _ hx)⟩

theorem uniqueFirst_nodup : ∀ (l seen : List String), (uniqueFirst l seen).Nodup := by
  intro l
  induction l with
  | nil =>
      intro seen
      simp [uniqueFirst]
  | cons y ys ih =>
      intro seen
      by_cases hy : y ∈ seen
      · simpa only [uniqueFirst, hy, if_pos] using ih seen
      · simp only [uniqueFirst, hy, if_neg, not_false_iff, List.nodup_cons]
        refine ⟨fun hmem => ?_, ih (y :: seen)⟩
        exact (uniqueFirst_mem_imp ys (y :: seen) hmem).2 (List.mem_cons_self _ _)

/-- C4: context retrieval with an unavailable Embedder (every embed call
fails) always returns the chronological fallback — the K most recent
chunks by ordinal, assembled in chronological order — and never an error,
for any non-empty conversation, with or without a query. -/
theorem claim4_embedder_down_chronological_fallback
    (search : List Int → Nat → List Chunk) (chunks : List Chunk) (k : Nat)
    (query : Option String) (hne : chunks ≠ []) :
    getContext (fun _ => none) search chunks k query =
      .ok (assembleContext (recentChunks chunks k),
           (assembleContext (recentChunks chunks k)).data.length) := by
  unfold getContext
  cases query with
  | none =>
      cases k with
      | zero => simp [recentChunks]
      | succ n => simp
  | some q =>
      cases k with
      | zero => simp [recentChunks]
      | succ n => simp

/-- Witness for C4 at a concrete one-chunk conversation. -/
theorem claim4_witness :
    ([({ ordinal := 0, version := 1, chunkText := "m1 m2", embedding := none } : Chunk)] ≠
        ([] : List Chunk)) ∧
    getContext (fun _ => none) (fun _ _ => [])
        [{ ordinal := 0, version := 1, chunkText := "m1 m2", embedding := none }] 5 none =
      .ok (assembleContext (recentChunks
            [{ ordinal := 0, version := 1, chunkText := "m1 m2", embedding := none }] 5),
          (assembleContext (recentChunks
            [{ ordinal := 0, version := 1, chunkText := "m1 m2", embedding := none }] 5)).data.length) :=
  ⟨by decide, claim4_embedder_down_chronological_fallback (fun _ _ => []) _ 5 none (by decide)⟩

/-- C7: sendTextForDraftResponse issues exactly one request to
/draft_response whose body carries the fields text and as_user, returns
the parsed JSON body when the response is ok, and throws exactly when no
ok response is obtained. -/
theorem claim7_draft_request_shape (w : World) (text : String) (asUser : Option String) :
    (sendTextForDraftResponse w text asUser).2 = [Request.draftRequest text asUser] ∧
    (∀ b, w.draftResp text asUser = .ok b →
      (sendTextForDraftResponse w text asUser).1 = .ok b) ∧
    ((∃ e, (sendTextForDraftResponse w text asUser).1 = .error e) ↔
      ∀ b, w.draftResp text asUser ≠ .ok b) := by
  unfold sendTextForDraftResponse
  cases h : w.draftResp text asUser with
  | ok b =>
      refine ⟨rfl, ?_, ?_⟩
      · intro b' hb'
        cases hb'
        rfl
      · constructor
        · rintro ⟨e, he⟩
          cases he
        · intro hall
          exact absurd rfl (hall b)
  | httpError =>
      refine ⟨rfl, ?_, ?_⟩
      · intro b' hb'
        cases hb'
      · constructor
        · intro _ b' hb'
          cases hb'
        · intro _
          exact ⟨"Failed to draft response", rfl⟩
  | netThrow =>
      refine ⟨rfl, ?_, ?_⟩
      · intro b' hb'
        cases hb'
      · constructor
        · intro _ b' hb'
          cases hb'
        · intro _
          exact ⟨"fetch rejected", rfl⟩

/-- Witness for C7 at a concrete world where the draft endpoint answers ok. -/
theorem claim7_witness :
    (sendTextForDraftResponse
        { createConv := fun _ _ => .httpError, summaryResp := fun _ => .httpError,
          legacyResp := fun _ => .httpError, draftResp := fun _ _ => .ok "a draft" }
        "hi there" (some "alice")).2 = [Request.draftRequest "hi there" (some "alice")] ∧
    (sendTextForDraftResponse
        { createConv := fun _ _ => .httpError, summaryResp := fun _ => .httpError,
          legacyResp := fun _ => .httpError, draftResp := fun _ _ => .ok "a draft" }
        "hi there" (some "alice")).1 = .ok "a draft" := by
  have h := claim7_draft_request_shape
    { createConv := fun _ _ => .httpError, summaryResp := fun _ => .httpError,
      legacyResp := fun _ => .httpError, draftResp := fun _ _ => .ok "a draft" }
    "hi there" (some "alice")
  exact ⟨h.1, h.2.1 "a draft" rfl⟩

/-- C9: handleSummarize resets its loading flag on every outcome (the
finally block), while handleGetKeyInfo on a rejected call leaves the
state exactly as set before the await — keyLoading stuck at true (so the
button stays disabled) and keyInfo/icsFile untouched. -/
theorem claim9_loading_reset_asymmetry (s : UIState) (o : CallOutcome String) :
    (handleSummarize s o).loading = false ∧
    (s.text ≠ "" →
      handleGetKeyInfo s .failure = { s with keyLoading := true } ∧
      keyInfoButtonDisabled (handleGetKeyInfo s .failure) = true) := by
  constructor
  · cases o <;> simp [handleSummarize]
  · intro h
    constructor
    · simp [handleGetKeyInfo, h]
    · simp [handleGetKeyInfo, keyInfoButtonDisabled, h]

/-- Witness for C9 at a concrete state with non-empty text. -/
theorem claim9_witness :
    (handleSummarize { initialUIState with text := "t" } CallOutcome.failure).loading = false ∧
    handleGetKeyInfo { initialUIState with text := "t" } CallOutcome.failure =
      { initialUIState with text := "t", keyLoading := true } ∧
    keyInfoButtonDisabled
      (handleGetKeyInfo { initialUIState with text := "t" } CallOutcome.failure) = true := by
  have h := claim9_loading_reset_asymmetry { initialUIState with text := "t" } CallOutcome.failure
  have h2 := h.2 (by decide)
  exact ⟨h.1, h2.1, h2.2⟩

/-- C10: from a state with no users selected, uploading a file stores the
content and sets the user list to exactly the claimed list — distinct
(Nodup, first occurrences) non-blank values of the first column whose
header is user_name/author/sender case-insensitively — with the selected
user initialized to its head; when there is no such column or no data
rows the list and selection stay empty. -/
theorem claim10_user_extraction (s : UIState) (content : String)
    (h0 : s.userNames = []) (h1 : s.selectedUser = "") :
    (handleFileUpload s content).text = content ∧
    (handleFileUpload s content).userNames = claimedUserList content ∧
    (handleFileUpload s content).selectedUser =
      (match claimedUserList content with | [] => "" | n :: _ => n) ∧
    (claimedUserList content).Nodup := by
  unfold handleFileUpload extractedUserNames claimedUserList
  cases hr : csvRows content with
  | nil =>
      simp [h0, h1]
  | cons firstRow rest =>
      cases hk : userColumnKey firstRow with
      | none =>
          simp [hk, h0, h1]
      | some key =>
          simp only [hk]
          have hnd := uniqueFirst_nodup
            (List.filter nonBlank (List.filterMap (fun r => jsField r key) (firstRow :: rest))) []
          cases hn : uniqueFirst
              (List.filter nonBlank (List.filterMap (fun r => jsField r key) (firstRow :: rest))) [] with
          | nil =>
              rw [hn] at hnd
              simp [hn, h1, hnd]
          | cons n ns =>
              rw [hn] at hnd
              simp [hn, hnd]

/-- Witness for C10 at a concrete upload with a duplicate and a blank cell. -/
theorem claim10_witness :
    (handleFileUpload initialUIState "Author,content\nalice,hi\nbob,yo\nalice,again\n ,x").userNames =
      claimedUserList "Author,content\nalice,hi\nbob,yo\nalice,again\n ,x" ∧
    (handleFileUpload initialUIState "Author,content\nalice,hi\nbob,yo\nalice,again\n ,x").selectedUser =
      (match claimedUserList "Author,content\nalice,hi\nbob,yo\nalice,again\n ,x" with
       | [] => "" | n :: _ => n) ∧
    claimedUserList "Author,content\nalice,hi\nbob,yo\nalice,again\n ,x" = ["alice", "bob"] := by
  have h := claim10_user_extraction initialUIState
    "Author,content\nalice,hi\nbob,yo\nalice,again\n ,x" rfl rfl
  exact ⟨h.2.1, h.2.2.1, by decide⟩

theorem inner_no_msgs (w : World) (d : String → Option String) (fresh : String)
    (cache : ConvCache) (text : String)
    (hp : parseCSVMessages d text = none) :
    sendToNewAPIInner w d fresh cache text =
      ((sendToLegacyAPI w text).1, cache, (sendToLegacyAPI w text).2) := by
  unfold sendToNewAPIInner
  rw [hp]

theorem inner_cached_sum_ok (w : World) (d : String → Option String) (fresh : String)
    (cache : ConvCache) (text : String) (msgs : List Msg) (cid b : String)
    (hp : parseCSVMessages d text = some msgs)
    (hc : cacheLookup cache (convKey text) = some cid)
    (hs : w.summaryResp cid = .ok b) :
    sendToNewAPIInner w d fresh cache text = (.ok b, cache, [.getSummary cid]) := by
  simp only [sendToNewAPIInner, hp, hc, hs]

theorem inner_cached_sum_err (w : World) (d : String → Option String) (fresh : String)
    (cache : ConvCache) (text : String) (msgs : List Msg) (cid : String)
    (hp : parseCSVMessages d text = some msgs)
    (hc : cacheLookup cache (convKey text) = some cid)
    (hs : ∀ b, w.summaryResp cid ≠ .ok b) :
    sendToNewAPIInner w d fresh cache text =
      (.error "Failed to get summary", cache, [.getSummary cid]) := by
  simp only [sendToNewAPIInner, hp, hc]

theorem inner_create_ok_sum_ok (w : World) (d : String → Option String) (fresh : String)
    (cache : ConvCache) (text : String) (msgs : List Msg) (rid b : String)
    (hp : parseCSVMessages d text = some msgs)
    (hc : cacheLookup cache (convKey text) = none)
    (hcr : w.createConv msgs fresh = .ok rid)
    (hs : w.summaryResp rid = .ok b) :
    sendToNewAPIInner w d fresh cache text =
      (.ok b, (convKey text, rid) :: cache,
        [.createConversation msgs fresh, .getSummary rid]) := by
  simp only [sendToNewAPIInner, hp, hc, hcr, hs]

theorem inner_create_ok_sum_err (w : World) (d : String → Option String) (fresh : String)
    (cache : ConvCache) (text : String) (msgs : List Msg) (rid : String)
    (hp : parseCSVMessages d text = some msgs)
    (hc : cacheLookup cache (convKey text) = none)
    (hcr : w.createConv msgs fresh = .ok rid)
    (hs : ∀ b, w.summaryResp rid ≠ .ok b) :
    sendToNewAPIInner w d fresh cache text =
      (.error "Failed to get summary", (convKey text, rid) :: cache,
        [.createConversation msgs fresh, .getSummary rid]) := by
  simp only [sendToNewAPIInner, hp, hc, hcr]

theorem inner_create_fail (w : World) (d : String → Option String) (fresh : String)
    (cache : ConvCache) (text : String) (msgs : List Msg)
    (hp : parseCSVMessages d text = some msgs)
    (hc : cacheLookup cache (convKey text) = none)
    (hcr : ∀ rid, w.createConv msgs fresh ≠ .ok rid) :
    sendToNewAPIInner w d fresh cache text =
      (.error "Failed to create conversation", cache, [.createConversation msgs fresh]) := by
  simp only [sendToNewAPIInner, hp, hc]

theorem backend_fst_eq_legacy_of_inner_error (w : World) (d : String → Option String)
    (fresh : String) (cache : ConvCache) (text : String)
    (h : ∃ e, (sendToNewAPIInner w d fresh cache text).1 = .error e) :
    (sendTextToBackend w d fresh cache text).1 = (sendToLegacyAPI w text).1 := by
  obtain ⟨e, he⟩ := h
  unfold sendTextToBackend sendToNewAPI
  rcases hi : sendToNewAPIInner w d fresh cache text with ⟨r, c2, log⟩
  rw [hi] at he
  simp only at he
  subst he
  rcases hl : sendToLegacyAPI w text with ⟨lr, llog⟩
  cases lr <;> simp [hl]

theorem backend_fst_eq_legacy_of_no_msgs (w : World) (d : String → Option String)
    (fresh : String) (cache : ConvCache) (text : String)
    (hp : parseCSVMessages d text = none) :
    (sendTextToBackend w d fresh cache text).1 = (sendToLegacyAPI w text).1 := by
  unfold sendTextToBackend sendToNewAPI
  rw [inner_no_msgs w d fresh cache text hp]
  rcases hl : sendToLegacyAPI w text with ⟨lr, llog⟩
  cases lr <;> simp [hl]

/-- The new conversation-API path fails at some stage: CSV parsing yields
no messages, or the conversation-creation request gets no ok response, or
the summary request (for the cached or the freshly created conversation)
gets no ok response. -/
def NewPathFails (w : World) (d : String → Option String) (fresh : String)
    (cache : ConvCache) (text : String) : Prop :=
  parseCSVMessages d text = none
  ∨ (∃ msgs, parseCSVMessages d text = some msgs ∧
      cacheLookup cache (convKey text) = none ∧
      ∀ rid, w.createConv msgs fresh ≠ .ok rid)
  ∨ (∃ msgs cid, parseCSVMessages d text = some msgs ∧
      cacheLookup cache (convKey text) = some cid ∧
      ∀ b, w.summaryResp cid ≠ .ok b)
  ∨ (∃ msgs rid, parseCSVMessages d text = some msgs ∧
      cacheLookup cache (convKey text) = none ∧
      w.createConv msgs fresh = .ok rid ∧
      ∀ b, w.summaryResp rid ≠ .ok b)

/-- C1: whenever the new conversation-API path fails at any stage,
sendTextToBackend returns exactly what the legacy POST /summarize call
returns — the new-path error never reaches the caller. -/
theorem claim1_new_path_failure_degrades_to_legacy (w : World)
    (d : String → Option String) (fresh : String) (cache : ConvCache) (text : String)
    (h : NewPathFails w d fresh cache text) :
    (sendTextToBackend w d fresh cache text).1 = (sendToLegacyAPI w text).1 := by
  rcases h with hp | ⟨msgs, hp, hc, hcr⟩ | ⟨msgs, cid, hp, hc, hs⟩ |
    ⟨msgs, rid, hp, hc, hcr, hs⟩
  · exact backend_fst_eq_legacy_of_no_msgs w d fresh cache text hp
  · exact backend_fst_eq_legacy_of_inner_error w d fresh cache text
      ⟨"Failed to create conversation", by
        rw [inner_create_fail w d fresh cache text msgs hp hc hcr]⟩
  · exact backend_fst_eq_legacy_of_inner_error w d fresh cache text
      ⟨"Failed to get summary", by
        rw [inner_cached_sum_err w d fresh cache text msgs cid hp hc hs]⟩
  · exact backend_fst_eq_legacy_of_inner_error w d fresh cache text
      ⟨"Failed to get summary", by
        rw [inner_create_ok_sum_err w d fresh cache text msgs rid hp hc hcr hs]⟩

/-- Identity-like stand-in for `new Date(s).toISOString()` in concrete
witnesses (every date parses, yielding a tagged ISO string). -/
def isoZ : String → Option String := fun s => some (s ++ "Z")

/-- A world whose legacy endpoint answers and whose new endpoints fail. -/
def worldLegacyOnly : World :=
  { createConv := fun _ _ => .httpError
    summaryResp := fun _ => .httpError
    legacyResp := fun _ => .ok "legacy summary"
    draftResp := fun _ _ => .httpError }

/-- Witness for C1: on empty input (no CSV messages) the result is the
legacy endpoint's. -/
theorem claim1_witness :
    NewPathFails worldLegacyOnly isoZ "uuid-1" [] "" ∧
    (sendTextToBackend worldLegacyOnly isoZ "uuid-1" [] "").1 =
      (sendToLegacyAPI worldLegacyOnly "").1 :=
  ⟨Or.inl (by decide),
   claim1_new_path_failure_degrades_to_legacy worldLegacyOnly isoZ "uuid-1" [] ""
     (Or.inl (by decide))⟩

/-- C5: with parsed CSV messages and no cached conversation id, the
adapter issues POST /conversations carrying the normalized message list
and the freshly generated id; when the creation response is ok the
subsequent summary request uses the server-returned conversation id
(whatever it is) and that id is stored in the cache; a non-ok creation
response makes that path throw, with no summary request issued. -/
theorem claim5_conversation_creation (w : World) (d : String → Option String)
    (fresh : String) (cache : ConvCache) (text : String) (msgs : List Msg)
    (hp : parseCSVMessages d text = some msgs)
    (hc : cacheLookup cache (convKey text) = none) :
    (∀ rid, w.createConv msgs fresh = .ok rid →
      (sendToNewAPIInner w d fresh cache text).2.2 =
        [Request.createConversation msgs fresh, Request.getSummary rid] ∧
      cacheLookup (sendToNewAPIInner w d fresh cache text).2.1 (convKey text) = some rid) ∧
    ((∀ rid, w.createConv msgs fresh ≠ .ok rid) →
      (∃ e, (sendToNewAPIInner w d fresh cache text).1 = .error e) ∧
      (sendToNewAPIInner w d fresh cache text).2.2 =
        [Request.createConversation msgs fresh]) := by
  constructor
  · intro rid hcr
    cases hsum : w.summaryResp rid with
    | ok b =>
        rw [inner_create_ok_sum_ok w d fresh cache text msgs rid b hp hc hcr hsum]
        exact ⟨rfl, by simp [cacheLookup]⟩
    | httpError =>
        have hs : ∀ b, w.summaryResp rid ≠ .ok b := by
          intro b hb
          rw [hsum] at hb
          cases hb
        rw [inner_create_ok_sum_err w d fresh cache text msgs rid hp hc hcr hs]
        exact ⟨rfl, by simp [cacheLookup]⟩
    | netThrow =>
        have hs : ∀ b, w.summaryResp rid ≠ .ok b := by
          intro b hb
          rw [hsum] at hb
          cases hb
        rw [inner_create_ok_sum_err w d fresh cache text msgs rid hp hc hcr hs]
        exact ⟨rfl, by simp [cacheLookup]⟩
  · intro hcr
    rw [inner_create_fail w d fresh cache text msgs hp hc hcr]
    exact ⟨⟨"Failed to create conversation", rfl⟩, rfl⟩

/-- A world whose conversation endpoints answer: creation returns the
server-chosen id conv-9 regardless of the requested one, and every
summary request is ok. -/
def worldServerId : World :=
  { createConv := fun _ _ => .ok "conv-9"
    summaryResp := fun cid => .ok ("summary of " ++ cid)
    legacyResp := fun _ => .httpError
    draftResp := fun _ _ => .httpError }

/-- Witness for C5 at a concrete CSV upload: the conversation is created
with the parsed messages and uuid-1, and the server-returned id conv-9
(not uuid-1) is used for the summary request and cached. -/
theorem claim5_witness :
    parseCSVMessages isoZ "author,content\nalice,hi" =
      some [{ author := "alice", content := "hi", timestamp := none }] ∧
    (sendToNewAPIInner worldServerId isoZ "uuid-1" [] "author,content\nalice,hi").2.2 =
      [Request.createConversation [{ author := "alice", content := "hi", timestamp := none }] "uuid-1",
       Request.getSummary "conv-9"] ∧
    cacheLookup (sendToNewAPIInner worldServerId isoZ "uuid-1" [] "author,content\nalice,hi").2.1
      (convKey "author,content\nalice,hi") = some "conv-9" := by
  have h := claim5_conversation_creation worldServerId isoZ "uuid-1" []
    "author,content\nalice,hi" [{ author := "alice", content := "hi", timestamp := none }]
    (by decide) (by decide)
  have h2 := h.1 "conv-9" rfl
  exact ⟨by decide, h2.1, h2.2⟩

/-- C6: once a conversation id is at hand on the new-API path — cached, or
fresh from creation — the value returned by that path is exactly the JSON
body of GET /conversations/{id}/summary when that response is ok, and a
non-ok response makes the path throw instead; in either case the path
issues no legacy /summarize request. -/
theorem claim6_summary_is_get_summary_body (w : World) (d : String → Option String)
    (fresh : String) (cache : ConvCache) (text : String) (msgs : List Msg)
    (hp : parseCSVMessages d text = some msgs) :
    (∀ cid, cacheLookup cache (convKey text) = some cid →
      (∀ b, w.summaryResp cid = .ok b →
        (sendToNewAPIInner w d fresh cache text).1 = .ok b) ∧
      ((∀ b, w.summaryResp cid ≠ .ok b) →
        (sendToNewAPIInner w d fresh cache text).1 = .error "Failed to get summary") ∧
      (∀ t, Request.legacySummarize t ∉ (sendToNewAPIInner w d fresh cache text).2.2)) ∧
    (∀ rid, cacheLookup cache (convKey text) = none →
      w.createConv msgs fresh = .ok rid →
      (∀ b, w.summaryResp rid = .ok b →
        (sendToNewAPIInner w d fresh cache text).1 = .ok b) ∧
      ((∀ b, w.summaryResp rid ≠ .ok b) →
        (sendToNewAPIInner w d fresh cache text).1 = .error "Failed to get summary") ∧
      (∀ t, Request.legacySummarize t ∉ (sendToNewAPIInner w d fresh cache text).2.2)) := by
  constructor
  · intro cid hc
    refine ⟨?_, ?_, ?_⟩
    · intro b hb
      rw [inner_cached_sum_ok w d fresh cache text msgs cid b hp hc hb]
    · intro hs
      rw [inner_cached_sum_err w d fresh cache text msgs cid hp hc hs]
    · intro t
      cases hsum : w.summaryResp cid with
      | ok b =>
          rw [inner_cached_sum_ok w d fresh cache text msgs cid b hp hc hsum]
          simp
      | httpError =>
          have hs : ∀ b, w.summaryResp cid ≠ .ok b := by
            intro b hb
            rw [hsum] at hb
            cases hb
          rw [inner_cached_sum_err w d fresh cache text msgs cid hp hc hs]
          simp
      | netThrow =>
          have hs : ∀ b, w.summaryResp cid ≠ .ok b := by
            intro b hb
            rw [hsum] at hb
            cases hb
          rw [inner_cached_sum_err w d fresh cache text msgs cid hp hc hs]
          simp
  · intro rid hc hcr
    refine ⟨?_, ?_, ?_⟩
    · intro b hb
      rw [inner_create_ok_sum_ok w d fresh cache text msgs rid b hp hc hcr hb]
    · intro hs
      rw [inner_create_ok_sum_err w d fresh cache text msgs rid hp hc hcr hs]
    · intro t
      cases hsum : w.summaryResp rid with
      | ok b =>
          rw [inner_create_ok_sum_ok w d fresh cache text msgs rid b hp hc hcr hsum]
          simp
      | httpError =>
          have hs : ∀ b, w.summaryResp rid ≠ .ok b := by
            intro b hb
            rw [hsum] at hb
            cases hb
          rw [inner_create_ok_sum_err w d fresh cache text msgs rid hp hc hcr hs]
          simp
      | netThrow =>
          have hs : ∀ b, w.summaryResp rid ≠ .ok b := by
            intro b hb
            rw [hsum] at hb
            cases hb
          rw [inner_create_ok_sum_err w d fresh cache text msgs rid hp hc hcr hs]
          simp

/-- Witness for C6 with a cached conversation id: the summary body is
passed through verbatim. -/
theorem claim6_witness :
    (sendToNewAPIInner worldServerId isoZ "uuid-1"
        [(convKey "author,content\nalice,hi", "conv-7")] "author,content\nalice,hi").1 =
      .ok "summary of conv-7" ∧
    (∀ t, Request.legacySummarize t ∉
      (sendToNewAPIInner worldServerId isoZ "uuid-1"
        [(convKey "author,content\nalice,hi", "conv-7")] "author,content\nalice,hi").2.2) := by
  have h := claim6_summary_is_get_summary_body worldServerId isoZ "uuid-1"
    [(convKey "author,content\nalice,hi", "conv-7")] "author,content\nalice,hi"
    [{ author := "alice", content := "hi", timestamp := none }] (by decide)
  have h2 := h.1 "conv-7" (by simp [cacheLookup])
  exact ⟨h2.1 "summary of conv-7" rfl, h2.2.2⟩

theorem backend_cache_eq_inner_cache (w : World) (d : String → Option String)
    (fresh : String) (cache : ConvCache) (text : String) :
    (sendTextToBackend w d fresh cache text).2.1 =
      (sendToNewAPIInner w d fresh cache text).2.1 := by
  unfold sendTextToBackend sendToNewAPI
  rcases hi : sendToNewAPIInner w d fresh cache text with ⟨r, c2, log⟩
  cases r with
  | ok b => rfl
  | error e =>
      rcases hl : sendToLegacyAPI w text with ⟨lr, llog⟩
      cases lr <;> simp [hl]

/-- A 79-character filler making the two scenario texts agree on their
first 100 characters. -/
def xs79 : String := String.mk (List.replicate 79 'x')

/-- First scenario text: a 101-character CSV whose last character is a. -/
def textA : String := "author,content\nalice," ++ xs79 ++ "a"

/-- Second scenario text: identical to textA except for the 101st character. -/
def textB : String := "author,content\nalice," ++ xs79 ++ "b"

/-- The single message textA parses to. -/
def msgA : Msg := { author := "alice", content := xs79 ++ "a", timestamp := none }

/-- The single message textB parses to. -/
def msgB : Msg := { author := "alice", content := xs79 ++ "b", timestamp := none }

deriving instance DecidableEq for Except

/-- A deterministic backend that names conversations after their content
and summarizes per conversation, so results reveal which conversation a
summary request addressed. -/
def worldAB : World :=
  { createConv := fun msgs _ => .ok (if msgs = [msgA] then "conv-1" else "conv-2")
    summaryResp := fun cid => .ok (if cid = "conv-1" then "summary-1" else "summary-2")
    legacyResp := fun _ => .httpError
    draftResp := fun _ _ => .httpError }

/-- Counterexample to C3: the conversation registry is ambient module
state shared by all calls, not an injected per-call store — the very same
call (same world, same uuid, same input text) issues different HTTP
requests depending on what an earlier, unrelated call left in the
module-level conversationCache. -/
theorem claim3_counterexample :
    (sendTextToBackend worldAB isoZ "uuid-2"
        (sendTextToBackend worldAB isoZ "uuid-1" [] textA).2.1 textB).2.2 ≠
      (sendTextToBackend worldAB isoZ "uuid-2" [] textB).2.2 := by
  decide

/-- C3 amended: the adapter keeps the text-to-conversation mapping in the
module-level conversationCache shared by all calls: whatever one call
stores under a key is seen by every later call with an equal key, which
then issues no creation request and reuses the stored conversation id. -/
theorem claim3_registry_is_module_state (w : World) (d : String → Option String)
    (f1 f2 t1 t2 : String) (msgs1 : List Msg) (rid : String)
    (hk : convKey t1 = convKey t2)
    (hp1 : parseCSVMessages d t1 = some msgs1)
    (hp2 : ∃ msgs2, parseCSVMessages d t2 = some msgs2)
    (hcr : w.createConv msgs1 f1 = .ok rid) :
    cacheLookup (sendTextToBackend w d f1 [] t1).2.1 (convKey t2) = some rid ∧
    (sendToNewAPIInner w d f2 (sendTextToBackend w d f1 [] t1).2.1 t2).2.2 =
      [Request.getSummary rid] := by
  have hc0 : cacheLookup [] (convKey t1) = none := rfl
  have hcache : (sendTextToBackend w d f1 [] t1).2.1 = [(convKey t1, rid)] := by
    rw [backend_cache_eq_inner_cache]
    cases hsum : w.summaryResp rid with
    | ok b =>
        rw [inner_create_ok_sum_ok w d f1 [] t1 msgs1 rid b hp1 hc0 hcr hsum]
    | httpError =>
        have hs : ∀ b, w.summaryResp rid ≠ .ok b := by
          intro b hb
          rw [hsum] at hb
          cases hb
        rw [inner_create_ok_sum_err w d f1 [] t1 msgs1 rid hp1 hc0 hcr hs]
    | netThrow =>
        have hs : ∀ b, w.summaryResp rid ≠ .ok b := by
          intro b hb
          rw [hsum] at hb
          cases hb
        rw [inner_create_ok_sum_err w d f1 [] t1 msgs1 rid hp1 hc0 hcr hs]
  have hlook : cacheLookup (sendTextToBackend w d f1 [] t1).2.1 (convKey t2) = some rid := by
    rw [hcache, ← hk]
    simp [cacheLookup]
  refine ⟨hlook, ?_⟩
  obtain ⟨msgs2, hp2'⟩ := hp2
  cases hsum : w.summaryResp rid with
  | ok b =>
      rw [inner_cached_sum_ok w d f2 _ t2 msgs2 rid b hp2' hlook hsum]
  | httpError =>
      have hs : ∀ b, w.summaryResp rid ≠ .ok b := by
        intro b hb
        rw [hsum] at hb
        cases hb
      rw [inner_cached_sum_err w d f2 _ t2 msgs2 rid hp2' hlook hs]
  | netThrow =>
      have hs : ∀ b, w.summaryResp rid ≠ .ok b := by
        intro b hb
        rw [hsum] at hb
        cases hb
      rw [inner_cached_sum_err w d f2 _ t2 msgs2 rid hp2' hlook hs]

/-- Witness for the amended C3 at the concrete scenario. -/
theorem claim3_witness :
    cacheLookup (sendTextToBackend worldAB isoZ "uuid-1" [] textA).2.1 (convKey textB) =
      some "conv-1" ∧
    (sendToNewAPIInner worldAB isoZ "uuid-2"
        (sendTextToBackend worldAB isoZ "uuid-1" [] textA).2.1 textB).2.2 =
      [Request.getSummary "conv-1"] :=
  claim3_registry_is_module_state worldAB isoZ "uuid-1" "uuid-2" textA textB [msgA]
    "conv-1" (by decide) (by decide) ⟨[msgB], by decide⟩ (by decide)

/-- C8: two distinct inputs agreeing on their first 100 characters get the
same cache key; after a first call on textA, a call on textB creates no
conversation and only requests the summary of textA's conversation, so it
returns textA's summary — not a function of textB's full content, as a
fresh call on textB demonstrates by answering differently. -/
theorem claim8_key_prefix_collision :
    textA ≠ textB ∧
    jsSubstring100 textA = jsSubstring100 textB ∧
    convKey textA = convKey textB ∧
    parseCSVMessages isoZ textA ≠ parseCSVMessages isoZ textB ∧
    (sendTextToBackend worldAB isoZ "uuid-2"
        (sendTextToBackend worldAB isoZ "uuid-1" [] textA).2.1 textB).2.2 =
      [Request.getSummary "conv-1"] ∧
    (sendTextToBackend worldAB isoZ "uuid-2"
        (sendTextToBackend worldAB isoZ "uuid-1" [] textA).2.1 textB).1 =
      (sendTextToBackend worldAB isoZ "uuid-1" [] textA).1 ∧
    (sendTextToBackend worldAB isoZ "uuid-2" [] textB).1 ≠
      (sendTextToBackend worldAB isoZ "uuid-2"
        (sendTextToBackend worldAB isoZ "uuid-1" [] textA).2.1 textB).1 := by
  refine ⟨by decide, by decide, by decide, by decide, by decide, by decide, by decide⟩

/-- The author the claim prescribes for a row: the user_name, author or
sender field in that priority (a field counts only when it carries a
non-empty value, JS truthiness), else Unknown. -/
def claimAuthor (row : Row) : String :=
  if truthy (jsField row "user_name") then (jsField row "user_name").getD "Unknown"
  else if truthy (jsField row "author") then (jsField row "author").getD "Unknown"
  else if truthy (jsField row "sender") then (jsField row "sender").getD "Unknown"
  else "Unknown"

/-- The content the claim prescribes for a row: the content, message or
text field in that priority, else the empty string. -/
def claimContent (row : Row) : String :=
  if truthy (jsField row "content") then (jsField row "content").getD ""
  else if truthy (jsField row "message") then (jsField row "message").getD ""
  else if truthy (jsField row "text") then (jsField row "text").getD ""
  else ""

theorem firstTruthy_three (o1 o2 o3 : Option String) (dflt : String) :
    firstTruthy [o1, o2, o3] dflt =
      if truthy o1 then o1.getD dflt
      else if truthy o2 then o2.getD dflt
      else if truthy o3 then o3.getD dflt
      else dflt := by
  simp [firstTruthy]

theorem rowToMsg_normal_form (d : String → Option String) (row : Row) (m : Msg)
    (h : rowToMsg d row = some m) :
    m.author = claimAuthor row ∧
    m.content = claimContent row ∧
    (truthy (jsField row "timestamp") = true →
      ∃ iso, d ((jsField row "timestamp").getD "") = some iso ∧ m.timestamp = some iso) ∧
    (truthy (jsField row "timestamp") = false → m.timestamp = none) := by
  simp only [rowToMsg] at h
  by_cases ht : truthy (jsField row "timestamp") = true
  · rw [if_pos ht] at h
    cases hd : d ((jsField row "timestamp").getD "") with
    | none =>
        rw [hd] at h
        simp at h
    | some iso =>
        rw [hd] at h
        rw [Option.map_some', Option.map_some'] at h
        injection h with h
        subst h
        refine ⟨firstTruthy_three _ _ _ _, firstTruthy_three _ _ _ _, ?_, ?_⟩
        · intro _
          exact ⟨iso, rfl, rfl⟩
        · intro hf
          rw [ht] at hf
          cases hf
  · rw [if_neg ht] at h
    rw [Option.map_some'] at h
    injection h with h
    subst h
    refine ⟨firstTruthy_three _ _ _ _, firstTruthy_three _ _ _ _, ?_, fun _ => rfl⟩
    intro htr
    exact absurd htr ht

theorem mapRowsToMsgs_length (f : Row → Option Msg) :
    ∀ {rs : List Row} {ms : List Msg}, mapRowsToMsgs f rs = some ms →
      ms.length = rs.length := by
  intro rs
  induction rs with
  | nil =>
      intro ms h
      simp [mapRowsToMsgs] at h
      simp [← h]
  | cons r rest ih =>
      intro ms h
      unfold mapRowsToMsgs at h
      cases hf : f r with
      | none => rw [hf] at h; cases h
      | some m =>
          rw [hf] at h
          cases hrec : mapRowsToMsgs f rest with
          | none => rw [hrec] at h; cases h
          | some tail =>
              rw [hrec] at h
              cases h
              simp [ih hrec]

theorem mapRowsToMsgs_get (f : Row → Option Msg) :
    ∀ {rs : List Row} {ms : List Msg}, mapRowsToMsgs f rs = some ms →
      ∀ i (h1 : i < rs.length) (h2 : i < ms.length),
        f (rs.get ⟨i, h1⟩) = some (ms.get ⟨i, h2⟩) := by
  intro rs
  induction rs with
  | nil =>
      intro ms h i h1 h2
      cases h1
  | cons r rest ih =>
      intro ms h i h1 h2
      unfold mapRowsToMsgs at h
      cases hf : f r with
      | none => rw [hf] at h; cases h
      | some m =>
          rw [hf] at h
          cases hrec : mapRowsToMsgs f rest with
          | none => rw [hrec] at h; cases h
          | some tail =>
              rw [hrec] at h
              cases h
              cases i with
              | zero => exact hf
              | succ j =>
                  exact ih hrec j (Nat.lt_of_succ_lt_succ h1) (Nat.lt_of_succ_lt_succ h2)

/-- C2: every message that crosses the boundary is fully normalized —
author and content are the claimed field fallback chains, the timestamp
is the ISO image of the row's timestamp field when one (non-empty) is
there and absent otherwise, and the normalization reads nothing but the
seven named fields of the row. -/
theorem claim2_boundary_normalization (d : String → Option String) (text : String)
    (msgs : List Msg) (hp : parseCSVMessages d text = some msgs) :
    msgs.length = (csvRows text).length ∧
    (∀ i (h1 : i < (csvRows text).length) (h2 : i < msgs.length),
      (msgs.get ⟨i, h2⟩).author = claimAuthor ((csvRows text).get ⟨i, h1⟩) ∧
      (msgs.get ⟨i, h2⟩).content = claimContent ((csvRows text).get ⟨i, h1⟩) ∧
      (truthy (jsField ((csvRows text).get ⟨i, h1⟩) "timestamp") = true →
        ∃ iso, d ((jsField ((csvRows text).get ⟨i, h1⟩) "timestamp").getD "") = some iso ∧
          (msgs.get ⟨i, h2⟩).timestamp = some iso) ∧
      (truthy (jsField ((csvRows text).get ⟨i, h1⟩) "timestamp") = false →
        (msgs.get ⟨i, h2⟩).timestamp = none)) ∧
    (∀ r1 r2 : Row,
      (∀ k ∈ (["user_name", "author", "sender", "content", "message", "text",
        "timestamp"] : List String), jsField r1 k = jsField r2 k) →
      rowToMsg d r1 = rowToMsg d r2) := by
  have hmap : mapRowsToMsgs (rowToMsg d) (csvRows text) = some msgs := by
    unfold parseCSVMessages at hp
    by_cases he : (csvRows text).isEmpty
    · rw [if_pos he] at hp
      cases hp
    · rwa [if_neg he] at hp
  refine ⟨mapRowsToMsgs_length _ hmap, ?_, ?_⟩
  · intro i h1 h2
    exact rowToMsg_normal_form d _ _ (mapRowsToMsgs_get _ hmap i h1 h2)
  · intro r1 r2 h
    unfold rowToMsg
    simp only [h "user_name" (by simp), h "author" (by simp), h "sender" (by simp),
      h "content" (by simp), h "message" (by simp), h "text" (by simp),
      h "timestamp" (by simp)]

/-- Witness for C2 on a CSV exercising the fallbacks: a sender/message row
with a timestamp, and a row with blank sender and timestamp cells. -/
theorem claim2_witness :
    parseCSVMessages isoZ "sender,message,timestamp\nbob,hello,2023-01-01\n,fallback," =
      some [{ author := "bob", content := "hello", timestamp := some "2023-01-01Z" },
            { author := "Unknown", content := "fallback", timestamp := none }] ∧
    ([{ author := "bob", content := "hello", timestamp := some "2023-01-01Z" },
      { author := "Unknown", content := "fallback", timestamp := none }] : List Msg).length =
      (csvRows "sender,message,timestamp\nbob,hello,2023-01-01\n,fallback,").length ∧
    "bob" = claimAuthor
      ((csvRows "sender,message,timestamp\nbob,hello,2023-01-01\n,fallback,").get
        ⟨0, by decide⟩) := by
  have h := claim2_boundary_normalization isoZ
    "sender,message,timestamp\nbob,hello,2023-01-01\n,fallback,"
    [{ author := "bob", content := "hello", timestamp := some "2023-01-01Z" },
     { author := "Unknown", content := "fallback", timestamp := none }] (by decide)
  exact ⟨by decide, h.1, (h.2.1 0 (by decide) (by decide)).1⟩

end SociaMate
